import Mathlib

/-!
# Verification of the Nexcaster news pipeline core

Shallow embedding of the segment/manifest pipeline of the
`nexcaster-news-v1` repository and proofs about it.

Sources embedded:
* `step3_tts_generator.py` — duration recording of the TTS renderers,
  the `--combine-only` render path, and the segment-timing loop of `main`
  (lines 521–545), which walks the rendered segments with a running clock
  and a fixed 1-second pause between consecutive segments.
* `step4_update_manifest.py` — `insert_weather_segments` (the manifest
  merger) and `map_media_to_segments` (the media mapper).
* `step2_generate_scripts.py` — the display-order assignment of the
  script generation step and the final sort of `main`.

Python floats are idealised as rationals (`ℚ`); `round(x, 3)` is embedded
as round-half-to-even at three decimals (`pyRound3`).  Python `print`
diagnostics that the spec calls warnings are modelled as returned lists of
warning strings.  Fallible vendor calls and audio decoding are modelled as
`Option`-valued oracles passed in as arguments.
-/

/-- Round-half-to-even to an integer, the tie-breaking rule of Python's
builtin `round`. -/
def roundHalfEven (x : ℚ) : ℤ :=
  let f := ⌊x⌋
  let r := x - f
  if r < 1/2 then f
  else if 1/2 < r then f + 1
  else if f % 2 = 0 then f else f + 1

/-- Python `round(q, 3)` on an exact rational: round `q * 1000` half-to-even
and divide back. -/
def pyRound3 (q : ℚ) : ℚ := (roundHalfEven (q * 1000) : ℚ) / 1000

/-- A rational that is an integer multiple of `1/1000`, i.e. an exact
three-decimal value.  Every duration the pipeline stores is produced by
`round(x, 3)`, hence satisfies this. -/
def isMilli (q : ℚ) : Prop := ∃ k : ℤ, q = (k : ℚ) / 1000

theorem pyRound3_int_div (k : ℤ) : pyRound3 ((k : ℚ) / 1000) = (k : ℚ) / 1000 := by
  unfold pyRound3 roundHalfEven
  have h : ((k : ℚ) / 1000) * 1000 = (k : ℚ) := by field_simp
  rw [h]
  simp [Int.floor_intCast]

theorem pyRound3_of_isMilli {q : ℚ} (h : isMilli q) : pyRound3 q = q := by
  obtain ⟨k, rfl⟩ := h
  exact pyRound3_int_div k

theorem isMilli_add {a b : ℚ} (ha : isMilli a) (hb : isMilli b) : isMilli (a + b) := by
  obtain ⟨k, rfl⟩ := ha
  obtain ⟨m, rfl⟩ := hb
  exact ⟨k + m, by push_cast; ring⟩

theorem isMilli_zero : isMilli 0 := ⟨0, by norm_num⟩

theorem isMilli_one : isMilli 1 := ⟨1000, by norm_num⟩

/-- An entry of the `audio_results` list produced by step 3: the fields of
the per-segment result dict that the timing loop reads or copies
(`segment_type`, `display_name`, `script`, `duration`; the remaining string
fields of the dict are summarised by `audio_file`). -/
structure RenderedSegment where
  segment_type : String
  display_name : String
  script : String
  audio_file : String
  duration : ℚ
  deriving Repr, DecidableEq

/-- A rendered segment after the timing loop of `step3_tts_generator.main`
has added `start_time` and `end_time` (the loop copies the dict and adds
the two keys). -/
structure TimedSegment extends RenderedSegment where
  start_time : ℚ
  end_time : ℚ
  deriving Repr, DecidableEq

/-- The timing loop of `step3_tts_generator.main` (lines 521–545):
`start_time = cumulative_time`, `end_time = start_time + duration`, the
stored values are rounded to three decimals, `cumulative_time` advances to
the unrounded `end_time`, and a pause is added after every segment except
the last.  The source hardcodes the pause as `1.0`; it is exposed here as
the parameter `pause`.  Returns the timed segments and the final
`cumulative_time` (the reported total manifest duration). -/
def calcTimingLoop (pause : ℚ) : List RenderedSegment → ℚ → List TimedSegment × ℚ
  | [], t => ([], t)
  | r :: rest, t =>
    let startTime := t
    let endTime := startTime + r.duration
    let next := if rest = [] then endTime else endTime + pause
    let out := calcTimingLoop pause rest next
    (⟨r, pyRound3 startTime, pyRound3 endTime⟩ :: out.1, out.2)

/-- Timeline computation of step 3: run the timing loop from clock `0`. -/
def calculate_segment_timing (pause : ℚ) (segs : List RenderedSegment) :
    List TimedSegment × ℚ :=
  calcTimingLoop pause segs 0

theorem calcTimingLoop_cons (pause : ℚ) (r : RenderedSegment)
    (rest : List RenderedSegment) (t : ℚ) :
    calcTimingLoop pause (r :: rest) t =
      (⟨r, pyRound3 t, pyRound3 (t + r.duration)⟩ ::
        (calcTimingLoop pause rest
          (if rest = [] then t + r.duration else t + r.duration + pause)).1,
       (calcTimingLoop pause rest
          (if rest = [] then t + r.duration else t + r.duration + pause)).2) := by
  rw [calcTimingLoop]

theorem calcTimingLoop_map (pause : ℚ) :
    ∀ (segs : List RenderedSegment) (t : ℚ),
      (calcTimingLoop pause segs t).1.map TimedSegment.toRenderedSegment = segs := by
  intro segs
  induction segs with
  | nil => intro t; simp [calcTimingLoop]
  | cons r rest ih =>
    intro t
    rw [calcTimingLoop_cons]
    simp [ih]

theorem calcTimingLoop_head (pause : ℚ) (segs : List RenderedSegment) (t : ℚ)
    (ht : isMilli t) (a : TimedSegment)
    (ha : (calcTimingLoop pause segs t).1[0]? = some a) :
    a.start_time = t := by
  cases segs with
  | nil => simp [calcTimingLoop] at ha
  | cons r rest =>
    rw [calcTimingLoop_cons] at ha
    simp only [List.getElem?_cons_zero, Option.some.injEq] at ha
    subst ha
    exact pyRound3_of_isMilli ht

theorem calcTimingLoop_endEq (pause : ℚ) (hp : isMilli pause) :
    ∀ (segs : List RenderedSegment) (t : ℚ), isMilli t →
      (∀ s ∈ segs, isMilli s.duration) →
      ∀ (i : ℕ) (a : TimedSegment), (calcTimingLoop pause segs t).1[i]? = some a →
        a.end_time = a.start_time + a.toRenderedSegment.duration := by
  intro segs
  induction segs with
  | nil => intro t _ _ i a ha; simp [calcTimingLoop] at ha
  | cons r rest ih =>
    intro t ht hdur i a ha
    have hdr : isMilli r.duration := hdur r (List.mem_cons_self r rest)
    have hEnd : isMilli (t + r.duration) := isMilli_add ht hdr
    have hNext : isMilli (if rest = [] then t + r.duration else t + r.duration + pause) := by
      split
      · exact hEnd
      · exact isMilli_add hEnd hp
    rw [calcTimingLoop_cons] at ha
    cases i with
    | zero =>
      simp only [List.getElem?_cons_zero, Option.some.injEq] at ha
      subst ha
      simp [pyRound3_of_isMilli ht, pyRound3_of_isMilli hEnd]
    | succ i =>
      rw [List.getElem?_cons_succ] at ha
      exact ih _ hNext (fun s hs => hdur s (List.mem_cons_of_mem r hs)) i a ha

theorem calcTimingLoop_consec (pause : ℚ) (hp : isMilli pause) :
    ∀ (segs : List RenderedSegment) (t : ℚ), isMilli t →
      (∀ s ∈ segs, isMilli s.duration) →
      ∀ (i : ℕ) (a b : TimedSegment),
        (calcTimingLoop pause segs t).1[i]? = some a →
        (calcTimingLoop pause segs t).1[i+1]? = some b →
        b.start_time = a.end_time + pause := by
  intro segs
  induction segs with
  | nil => intro t _ _ i a b ha _; simp [calcTimingLoop] at ha
  | cons r rest ih =>
    intro t ht hdur i a b ha hb
    have hdr : isMilli r.duration := hdur r (List.mem_cons_self r rest)
    have hEnd : isMilli (t + r.duration) := isMilli_add ht hdr
    have hdur' : ∀ s ∈ rest, isMilli s.duration :=
      fun s hs => hdur s (List.mem_cons_of_mem r hs)
    rw [calcTimingLoop_cons] at ha hb
    cases i with
    | zero =>
      simp only [List.getElem?_cons_zero, Option.some.injEq] at ha
      subst ha
      rw [List.getElem?_cons_succ] at hb
      have hrest : rest ≠ [] := by
        intro hnil
        subst hnil
        simp [calcTimingLoop] at hb
      rw [if_neg hrest] at hb
      have hb0 := calcTimingLoop_head pause rest (t + r.duration + pause)
        (isMilli_add hEnd hp) b hb
      simp only [hb0, pyRound3_of_isMilli hEnd]
    | succ i =>
      rw [List.getElem?_cons_succ] at ha
      rw [List.getElem?_cons_succ] at hb
      have hNext : isMilli (if rest = [] then t + r.duration else t + r.duration + pause) := by
        split
        · exact hEnd
        · exact isMilli_add hEnd hp
      exact ih _ hNext hdur' i a b ha hb

theorem calcTimingLoop_total (pause : ℚ) (hp : isMilli pause) :
    ∀ (segs : List RenderedSegment) (t : ℚ), isMilli t →
      (∀ s ∈ segs, isMilli s.duration) →
      ∀ (a : TimedSegment), (calcTimingLoop pause segs t).1.getLast? = some a →
        (calcTimingLoop pause segs t).2 = a.end_time := by
  intro segs
  induction segs with
  | nil => intro t _ _ a ha; simp [calcTimingLoop] at ha
  | cons r rest ih =>
    intro t ht hdur a ha
    have hdr : isMilli r.duration := hdur r (List.mem_cons_self r rest)
    have hEnd : isMilli (t + r.duration) := isMilli_add ht hdr
    have hdur' : ∀ s ∈ rest, isMilli s.duration :=
      fun s hs => hdur s (List.mem_cons_of_mem r hs)
    rw [calcTimingLoop_cons] at ha ⊢
    cases hrest : rest with
    | nil =>
      subst hrest
      simp only [if_pos rfl] at ha ⊢
      simp only [calcTimingLoop, List.getLast?_singleton, Option.some.injEq] at ha ⊢
      subst ha
      simp [pyRound3_of_isMilli hEnd]
    | cons x xs =>
      subst hrest
      have hne : (x :: xs) ≠ ([] : List RenderedSegment) := by simp
      rw [if_neg hne] at ha ⊢
      have hmap := calcTimingLoop_map pause (x :: xs) (t + r.duration + pause)
      have hout : (calcTimingLoop pause (x :: xs) (t + r.duration + pause)).1 ≠ [] := by
        intro hnil
        rw [hnil] at hmap
        simp at hmap
      obtain ⟨y, ys, hys⟩ := List.exists_cons_of_ne_nil hout
      rw [hys] at ha
      rw [List.getLast?_cons_cons] at ha
      have := ih (t + r.duration + pause) (isMilli_add hEnd hp) hdur' a (by rw [hys]; exact ha)
      exact this

theorem pyRound3_intCast (k : ℤ) : pyRound3 (k : ℚ) = (k : ℚ) := by
  have h := pyRound3_int_div (1000 * k)
  have h2 : (((1000 * k : ℤ) : ℚ)) / 1000 = (k : ℚ) := by
    push_cast
    field_simp
  rw [h2] at h
  exact h

theorem pyRound3_ofNat (n : ℕ) : pyRound3 (n : ℚ) = (n : ℚ) := by
  have := pyRound3_intCast (n : ℤ)
  push_cast at this
  exact this

/-- C1: the timing loop of step 3 assigns each rendered segment
`start_time` equal to the running clock and `end_time = start_time +
duration`, each next segment's `start_time` is exactly the previous
`end_time + pause` (no pause after the final segment), and the reported
total duration equals the last `end_time`.  A zero-duration segment
therefore gets `start_time = end_time` and still contributes exactly
`pause` before the next segment.  Durations are assumed to be exact
three-decimal values, which is what `round(x, 3)` in step 3 always
produces. -/
theorem timeline_running_clock (pause : ℚ) (segs : List RenderedSegment)
    (hp : isMilli pause) (hd : ∀ s ∈ segs, isMilli s.duration) :
    ((calculate_segment_timing pause segs).1.map TimedSegment.toRenderedSegment = segs)
    ∧ (∀ (a : TimedSegment),
        (calculate_segment_timing pause segs).1[0]? = some a → a.start_time = 0)
    ∧ (∀ (i : ℕ) (a : TimedSegment),
        (calculate_segment_timing pause segs).1[i]? = some a →
        a.end_time = a.start_time + a.toRenderedSegment.duration)
    ∧ (∀ (i : ℕ) (a b : TimedSegment),
        (calculate_segment_timing pause segs).1[i]? = some a →
        (calculate_segment_timing pause segs).1[i+1]? = some b →
        b.start_time = a.end_time + pause)
    ∧ (∀ (a : TimedSegment),
        (calculate_segment_timing pause segs).1.getLast? = some a →
        (calculate_segment_timing pause segs).2 = a.end_time) :=
  ⟨calcTimingLoop_map pause segs 0,
   fun a ha => calcTimingLoop_head pause segs 0 isMilli_zero a ha,
   fun i a ha => calcTimingLoop_endEq pause hp segs 0 isMilli_zero hd i a ha,
   fun i a b ha hb => calcTimingLoop_consec pause hp segs 0 isMilli_zero hd i a b ha hb,
   fun a ha => calcTimingLoop_total pause hp segs 0 isMilli_zero hd a ha⟩

/-- The three-segment example of the spec: measured durations 15.0, 20.0,
10.0. -/
def exampleRendered : List RenderedSegment :=
  [⟨"opening_greeting", "Opening Greeting", "s0", "opening_greeting_0.mp3", 15⟩,
   ⟨"headline", "News Headline 1", "s1", "headline_2.mp3", 20⟩,
   ⟨"news", "News Story 1", "s2", "news_100.mp3", 10⟩]

/-- Witness for C1: the hypotheses hold for durations 15.0, 20.0, 10.0 and
pause 1.0, the theorem applies, and the computed timeline is exactly
(0,15), (16,36), (37,47) with total 47. -/
theorem timeline_running_clock_witness :
    (isMilli 1 ∧ ∀ s ∈ exampleRendered, isMilli s.duration)
    ∧ ((calculate_segment_timing 1 exampleRendered).1.map
          TimedSegment.toRenderedSegment = exampleRendered)
    ∧ ((calculate_segment_timing 1 exampleRendered).1.map
          (fun a => (a.start_time, a.end_time)) = [(0, 15), (16, 36), (37, 47)])
    ∧ (calculate_segment_timing 1 exampleRendered).2 = 47 := by
  have hd : ∀ s ∈ exampleRendered, isMilli s.duration := by
    intro s hs
    simp only [exampleRendered, List.mem_cons, List.not_mem_nil, or_false] at hs
    rcases hs with rfl | rfl | rfl
    · exact ⟨15000, by norm_num⟩
    · exact ⟨20000, by norm_num⟩
    · exact ⟨10000, by norm_num⟩
  have hmain := timeline_running_clock 1 exampleRendered isMilli_one hd
  have heval : calculate_segment_timing 1 exampleRendered =
      ([⟨⟨"opening_greeting", "Opening Greeting", "s0", "opening_greeting_0.mp3", 15⟩, 0, 15⟩,
        ⟨⟨"headline", "News Headline 1", "s1", "headline_2.mp3", 20⟩, 16, 36⟩,
        ⟨⟨"news", "News Story 1", "s2", "news_100.mp3", 10⟩, 37, 47⟩], 47) := by
    have h0 : pyRound3 0 = 0 := by simpa using pyRound3_ofNat 0
    have h15 : pyRound3 (15 : ℚ) = 15 := by simpa using pyRound3_ofNat 15
    have h16 : pyRound3 (16 : ℚ) = 16 := by simpa using pyRound3_ofNat 16
    have h36 : pyRound3 (36 : ℚ) = 36 := by simpa using pyRound3_ofNat 36
    have h37 : pyRound3 (37 : ℚ) = 37 := by simpa using pyRound3_ofNat 37
    have h47 : pyRound3 (47 : ℚ) = 47 := by simpa using pyRound3_ofNat 47
    norm_num [calculate_segment_timing, exampleRendered, calcTimingLoop,
      List.cons_ne_nil, h0, h15, h16, h36, h37, h47]
  refine ⟨⟨isMilli_one, hd⟩, hmain.1, ?_, ?_⟩
  · simp [heval]
  · simp [heval]

theorem calcTimingLoop_congr (pause : ℚ) :
    ∀ (s1 s2 : List RenderedSegment) (t : ℚ),
      s1.map RenderedSegment.duration = s2.map RenderedSegment.duration →
      (calcTimingLoop pause s1 t).1.map (fun a => (a.start_time, a.end_time)) =
        (calcTimingLoop pause s2 t).1.map (fun a => (a.start_time, a.end_time))
      ∧ (calcTimingLoop pause s1 t).2 = (calcTimingLoop pause s2 t).2 := by
  intro s1
  induction s1 with
  | nil =>
    intro s2 t h
    cases s2 with
    | nil => exact ⟨rfl, rfl⟩
    | cons y ys => simp at h
  | cons x xs ih =>
    intro s2 t h
    cases s2 with
    | nil => simp at h
    | cons y ys =>
      simp only [List.map_cons, List.cons.injEq] at h
      obtain ⟨hdur, htl⟩ := h
      have hnil : (xs = []) ↔ (ys = []) := by
        constructor
        · intro hx; subst hx; cases ys with
          | nil => rfl
          | cons a l => simp at htl
        · intro hy; subst hy; cases xs with
          | nil => rfl
          | cons a l => simp at htl
      rw [calcTimingLoop_cons, calcTimingLoop_cons]
      have hnext : (if xs = [] then t + x.duration else t + x.duration + pause) =
          (if ys = [] then t + y.duration else t + y.duration + pause) := by
        rw [hdur]
        by_cases hx : xs = []
        · rw [if_pos hx, if_pos (hnil.mp hx)]
        · rw [if_neg hx, if_neg (fun hy => hx (hnil.mpr hy))]
      have ihh := ih ys (if ys = [] then t + y.duration else t + y.duration + pause) htl
      constructor
      · rw [List.map_cons, List.map_cons, hnext, ihh.1, hdur]
      · rw [hnext]
        exact ihh.2

/-- C3 (amended): the timing computation of step 3 does not sort by
`display_order` (the `audio_results` records it walks carry no
`display_order` at all); its output timestamps and total are a function of
the input's positional sequence of durations alone.  In particular it is
deterministic — rebuilding on the same input gives the same output — but
permuting the input permutes the assigned timestamps; only the separate
audio-combining step sorts by `display_order`. -/
theorem timeline_function_of_list_position (pause : ℚ) (s1 s2 : List RenderedSegment)
    (h : s1.map RenderedSegment.duration = s2.map RenderedSegment.duration) :
    (calculate_segment_timing pause s1).1.map (fun a => (a.start_time, a.end_time)) =
      (calculate_segment_timing pause s2).1.map (fun a => (a.start_time, a.end_time))
    ∧ (calculate_segment_timing pause s1).2 = (calculate_segment_timing pause s2).2 :=
  calcTimingLoop_congr pause s1 s2 0 h

/-- Witness for the amended C3: two rendered-segment lists that differ in
every non-duration field but agree on the positional duration sequence get
identical timestamps. -/
theorem timeline_function_of_list_position_witness :
    ([⟨"news", "A", "sa", "a.mp3", 10⟩] : List RenderedSegment).map
        RenderedSegment.duration =
      ([⟨"weather_overview", "Z", "sz", "z.mp3", 10⟩] : List RenderedSegment).map
        RenderedSegment.duration
    ∧ (calculate_segment_timing 1 [⟨"news", "A", "sa", "a.mp3", 10⟩]).1.map
          (fun a => (a.start_time, a.end_time)) =
        (calculate_segment_timing 1 [⟨"weather_overview", "Z", "sz", "z.mp3", 10⟩]).1.map
          (fun a => (a.start_time, a.end_time)) := by
  have h : ([⟨"news", "A", "sa", "a.mp3", 10⟩] : List RenderedSegment).map
      RenderedSegment.duration =
      ([⟨"weather_overview", "Z", "sz", "z.mp3", 10⟩] : List RenderedSegment).map
        RenderedSegment.duration := by simp
  exact ⟨h, (timeline_function_of_list_position 1 _ _ h).1⟩

/-- Counterexample to C3 as stated: the two rendered segments below are a
permutation of each other's list, yet the computed timelines differ — the
timing loop assigns timestamps by list position and never sorts. -/
theorem timeline_not_permutation_invariant :
    (calculate_segment_timing 1
        [⟨"news", "A", "sa", "a.mp3", 10⟩, ⟨"news", "B", "sb", "b.mp3", 5⟩]).1 ≠
      (calculate_segment_timing 1
        [⟨"news", "B", "sb", "b.mp3", 5⟩, ⟨"news", "A", "sa", "a.mp3", 10⟩]).1 := by
  intro hcontra
  have h := congrArg (fun l => (l.map (fun a => a.display_name))[0]?) hcontra
  simp only [calculate_segment_timing, calcTimingLoop, List.map_cons,
    List.getElem?_cons_zero] at h
  exact absurd h (by simp)

/-- One entry of a segment's `media` array in step 4: the union of the
keys the code writes (`video`/`image`, `path`, `type`, and the optional
bookkeeping keys of image attachments). -/
structure MediaAttachment where
  video : Option String := none
  image : Option String := none
  path : String
  type : String
  news_index : Option ℤ := none
  original_name : Option String := none
  size_mb : Option ℚ := none
  deriving Repr, DecidableEq

/-- The `headline` object step 4 writes into segments for lower-third
display. -/
structure HeadlineInfo where
  text : String
  location : String
  category : String
  priority : String
  timestamp : String
  deriving Repr, DecidableEq

/-- A manifest segment as handled by `step4_update_manifest.py`: the
fields of the `individual_segments` dicts that step 4 reads or writes. -/
structure Segment where
  segment_type : String
  display_name : String
  script : String
  duration : ℚ
  start_time : ℚ
  end_time : ℚ
  audio_file : String
  audio_path : String
  media : List MediaAttachment
  headline : Option HeadlineInfo
  deriving Repr, DecidableEq

/-- The first loop of `insert_weather_segments` (lines 254–257): scan the
segments with a running index, remembering the index of the last segment
whose `segment_type` is `"news"`; `acc` starts at `-1`. -/
def lastNewsLoop : List Segment → ℤ → ℤ → ℤ
  | [], _, acc => acc
  | s :: rest, i, acc =>
    lastNewsLoop rest (i + 1) (if s.segment_type = "news" then i else acc)

/-- The fallback loop of `insert_weather_segments` (lines 261–264): find
the index of the first `closing_remarks` segment (the loop breaks at the
first match). -/
def firstClosingLoop : List Segment → ℤ → Option ℤ
  | [], _ => none
  | s :: rest, i =>
    if s.segment_type = "closing_remarks" then some i else firstClosingLoop rest (i + 1)

def warnNoNews : String :=
  "Warning: No news segment found. Appending weather segments before closing remarks."

def warnNoClosing : String :=
  "Warning: No closing_remarks found. Appending weather segments at end."

/-- The anchor computation of `insert_weather_segments` (lines 253–267):
the final value of `last_news_idx` — the index of the last news segment,
falling back to one before the first `closing_remarks`, then to
`len(segments) - 1` — together with the warnings printed on the way. -/
def mergeAnchor (segments : List Segment) : ℤ × List String :=
  let lastNews0 := lastNewsLoop segments 0 (-1)
  if lastNews0 = -1 then
    let j : ℤ :=
      match firstClosingLoop segments 0 with
      | some i => i - 1
      | none => -1
    if j = -1 then ((segments.length : ℤ) - 1, [warnNoNews, warnNoClosing])
    else (j, [warnNoNews])
  else (lastNews0, [])

/-- `insert_weather_segments` of `step4_update_manifest.py` (lines
250–274): compute `last_news_idx` (see `mergeAnchor`), set
`insert_pos = last_news_idx + 1` and splice the weather segments in by
list slicing: `segments[:insert_pos] + weather_segments +
segments[insert_pos:]`.  The two warning `print`s are returned as a
warning list. -/
def insert_weather_segments (segments weather_segments : List Segment) :
    List Segment × List String :=
  let res := mergeAnchor segments
  let insertPos := (res.1 + 1).toNat
  (segments.take insertPos ++ weather_segments ++ segments.drop insertPos, res.2)

theorem lastNewsLoop_lt :
    ∀ (l : List Segment) (i acc : ℤ), acc < i → lastNewsLoop l i acc < i + l.length := by
  intro l
  induction l with
  | nil => intro i acc h; simpa using h
  | cons s rest ih =>
    intro i acc h
    have hstep : (if s.segment_type = "news" then i else acc) < i + 1 := by
      split
      · omega
      · omega
    have := ih (i + 1) _ hstep
    simp only [lastNewsLoop, List.length_cons]
    push_cast
    push_cast at this
    omega

theorem firstClosingLoop_lt :
    ∀ (l : List Segment) (i j : ℤ), firstClosingLoop l i = some j →
      i ≤ j ∧ j < i + l.length := by
  intro l
  induction l with
  | nil => intro i j h; simp [firstClosingLoop] at h
  | cons s rest ih =>
    intro i j h
    simp only [firstClosingLoop] at h
    split at h
    · simp only [Option.some.injEq] at h
      subst h
      simp only [List.length_cons]
      push_cast
      omega
    · have := ih (i + 1) j h
      simp only [List.length_cons]
      push_cast
      push_cast at this
      omega

/-- The anchor index is always below the length of the list. -/
theorem mergeAnchor_lt (segments : List Segment) :
    (mergeAnchor segments).1 < (segments.length : ℤ) ∨
      (mergeAnchor segments).1 = (segments.length : ℤ) - 1 := by
  unfold mergeAnchor
  by_cases h0 : lastNewsLoop segments 0 (-1) = -1
  · rw [if_pos h0]
    cases hfc : firstClosingLoop segments 0 with
    | none =>
      simp only
      norm_num
    | some i =>
      have hi := firstClosingLoop_lt segments 0 i hfc
      simp only
      by_cases hj : i - 1 = -1
      · rw [if_pos hj]
        norm_num
      · rw [if_neg hj]
        left
        omega
  · rw [if_neg h0]
    left
    have := lastNewsLoop_lt segments 0 (-1) (by norm_num)
    simpa using this

/-- The merge always produces `take n ++ weather ++ drop n` for the
splice position `n = last_news_idx + 1 ≤ length`. -/
theorem insert_weather_decomp (segments weather : List Segment) :
    ∃ n, n ≤ segments.length ∧
      (insert_weather_segments segments weather).1 =
        segments.take n ++ weather ++ segments.drop n := by
  refine ⟨((mergeAnchor segments).1 + 1).toNat, ?_, rfl⟩
  rw [Int.toNat_le]
  rcases mergeAnchor_lt segments with h | h
  · omega
  · omega

theorem count_take_append_drop (l w : List Segment) (n : ℕ) (s : Segment) :
    (l.take n ++ w ++ l.drop n).count s = l.count s + w.count s := by
  rw [List.count_append, List.count_append]
  conv_rhs => rw [← List.take_append_drop n l, List.count_append]
  omega

/-- C4: merging a secondary block into the primary splices the secondary
as a contiguous block at some position `n` of the primary — so the
secondary's relative order is preserved exactly and the primary's relative
order is preserved apart from the insertion point — and every record of
primary and secondary occurs in the result exactly as often as in the
inputs combined (no duplication, no loss). -/
theorem merge_preserves_blocks (segments weather : List Segment) :
    ∃ n, n ≤ segments.length ∧
      (insert_weather_segments segments weather).1 =
        segments.take n ++ weather ++ segments.drop n
      ∧ ∀ s : Segment,
          (insert_weather_segments segments weather).1.count s =
            segments.count s + weather.count s := by
  obtain ⟨n, hn, heq⟩ := insert_weather_decomp segments weather
  exact ⟨n, hn, heq, fun s => by rw [heq, count_take_append_drop]⟩

theorem lastNewsLoop_of_no_news :
    ∀ (l : List Segment) (i acc : ℤ), (∀ s ∈ l, s.segment_type ≠ "news") →
      lastNewsLoop l i acc = acc := by
  intro l
  induction l with
  | nil => intro i acc _; rfl
  | cons s rest ih =>
    intro i acc h
    have hs : s.segment_type ≠ "news" := h s (List.mem_cons_self s rest)
    simp only [lastNewsLoop, if_neg hs]
    exact ih (i + 1) acc (fun x hx => h x (List.mem_cons_of_mem s hx))

theorem firstClosingLoop_of_no_closing :
    ∀ (l : List Segment) (i : ℤ), (∀ s ∈ l, s.segment_type ≠ "closing_remarks") →
      firstClosingLoop l i = none := by
  intro l
  induction l with
  | nil => intro i _; rfl
  | cons s rest ih =>
    intro i h
    have hs : s.segment_type ≠ "closing_remarks" := h s (List.mem_cons_self s rest)
    simp only [firstClosingLoop, if_neg hs]
    exact ih (i + 1) (fun x hx => h x (List.mem_cons_of_mem s hx))

/-- C5: if the primary contains no news segment and no closing_remarks
segment, the merge appends the secondary block at the very end of the
primary — identical to an explicit end-append — and the condition is
reported through the two warnings; the function returns normally (the
source has no raise path). -/
theorem merge_fallback_appends_at_end (segments weather : List Segment)
    (hnews : ∀ s ∈ segments, s.segment_type ≠ "news")
    (hclose : ∀ s ∈ segments, s.segment_type ≠ "closing_remarks") :
    (insert_weather_segments segments weather).1 = segments ++ weather
    ∧ (insert_weather_segments segments weather).2 = [warnNoNews, warnNoClosing] := by
  have hanchor : mergeAnchor segments = ((segments.length : ℤ) - 1, [warnNoNews, warnNoClosing]) := by
    unfold mergeAnchor
    rw [lastNewsLoop_of_no_news segments 0 (-1) hnews]
    rw [firstClosingLoop_of_no_closing segments 0 hclose]
    simp
  have hpos : ((mergeAnchor segments).1 + 1).toNat = segments.length := by
    rw [hanchor]
    omega
  constructor
  · show segments.take _ ++ weather ++ segments.drop _ = segments ++ weather
    rw [hpos, List.take_length, List.drop_length, List.append_nil]
  · show (mergeAnchor segments).2 = _
    rw [hanchor]

/-- A primary segment used in the concrete merge scenarios: an opening
greeting spanning 0–10 seconds on the news timeline. -/
def openingSeg : Segment :=
  ⟨"opening_greeting", "Opening Greeting", "intro script", 10, 0, 10,
   "opening_greeting_0.mp3", "generated/audio/opening_greeting_0.mp3", [], none⟩

/-- A weather segment carrying its own weather-timeline timestamps 0–5. -/
def weatherSeg : Segment :=
  ⟨"weather_overview", "Weather Overview", "weather script", 5, 0, 5,
   "weather_overview_0.mp3", "/weather/generated/audio/weather_overview_0.mp3", [], none⟩

/-- Witness for C5: on a primary with only an opening greeting (no news,
no closing_remarks) the hypotheses hold and the secondary lands at the
very end, with both warnings reported. -/
theorem merge_fallback_appends_at_end_witness :
    ((∀ s ∈ [openingSeg], s.segment_type ≠ "news")
      ∧ (∀ s ∈ [openingSeg], s.segment_type ≠ "closing_remarks"))
    ∧ (insert_weather_segments [openingSeg] [weatherSeg]).1 = [openingSeg, weatherSeg]
    ∧ (insert_weather_segments [openingSeg] [weatherSeg]).2 = [warnNoNews, warnNoClosing] := by
  have h1 : ∀ s ∈ [openingSeg], s.segment_type ≠ "news" := by
    intro s hs
    simp only [List.mem_singleton] at hs
    subst hs
    simp [openingSeg]
  have h2 : ∀ s ∈ [openingSeg], s.segment_type ≠ "closing_remarks" := by
    intro s hs
    simp only [List.mem_singleton] at hs
    subst hs
    simp [openingSeg]
  have h := merge_fallback_appends_at_end [openingSeg] [weatherSeg] h1 h2
  exact ⟨⟨h1, h2⟩, by rw [h.1]; rfl, h.2⟩

/-- Two segments of a manifest occupy overlapping time intervals. -/
def has_overlapping_segments (l : List Segment) : Prop :=
  ∃ (i j : ℕ) (a b : Segment), i < j ∧ l[i]? = some a ∧ l[j]? = some b
    ∧ a.start_time < b.end_time ∧ b.start_time < a.end_time

/-- Counterexample to C2: merging a weather timeline (segment timed 0–5 on
its own clock) into a news manifest (segment timed 0–10) keeps both
segments' absolute `start_time`/`end_time` unchanged — nothing is
discarded and `step4_update_manifest.main` saves the merged manifest
without any timeline rebuild — so the persisted manifest contains
overlapping segments. -/
theorem merged_manifest_keeps_timing_and_overlaps :
    (insert_weather_segments [openingSeg] [weatherSeg]).1 = [openingSeg, weatherSeg]
    ∧ has_overlapping_segments (insert_weather_segments [openingSeg] [weatherSeg]).1 := by
  have heq : (insert_weather_segments [openingSeg] [weatherSeg]).1 = [openingSeg, weatherSeg] := by
    have h1 : ∀ s ∈ [openingSeg], s.segment_type ≠ "news" := by
      intro s hs
      simp only [List.mem_singleton] at hs
      subst hs
      simp [openingSeg]
    have h2 : ∀ s ∈ [openingSeg], s.segment_type ≠ "closing_remarks" := by
      intro s hs
      simp only [List.mem_singleton] at hs
      subst hs
      simp [openingSeg]
    rw [(merge_fallback_appends_at_end [openingSeg] [weatherSeg] h1 h2).1]
    rfl
  refine ⟨heq, 0, 1, openingSeg, weatherSeg, by norm_num, ?_, ?_, ?_, ?_⟩
  · rw [heq]; rfl
  · rw [heq]; rfl
  · show openingSeg.start_time < weatherSeg.end_time
    simp [openingSeg, weatherSeg]
  · show weatherSeg.start_time < openingSeg.end_time
    simp [openingSeg, weatherSeg]

/-- C2 (amended): the merge carries every segment record of both inputs
through unchanged — in particular the absolute `start_time`/`end_time`
fields of both inputs are preserved, not discarded — and `main` persists
this merged list without rebuilding the timeline, so the persisted
manifest can contain overlapping segments (see the counterexample). -/
theorem merge_carries_segments_unchanged (segments weather : List Segment)
    (s : Segment) (hs : s ∈ (insert_weather_segments segments weather).1) :
    s ∈ segments ∨ s ∈ weather := by
  obtain ⟨n, _, heq⟩ := insert_weather_decomp segments weather
  rw [heq] at hs
  rcases List.mem_append.mp hs with h | h
  · rcases List.mem_append.mp h with h2 | h2
    · exact Or.inl (List.mem_of_mem_take h2)
    · exact Or.inr h2
  · exact Or.inl (List.mem_of_mem_drop h)

/-- Witness for the amended C2: in the concrete merge of the overlap
counterexample's inputs, the weather segment is a member of the output,
and the theorem places it in one of the inputs — its timestamps 0–5 are
carried through unchanged. -/
theorem merge_carries_segments_unchanged_witness :
    weatherSeg ∈ (insert_weather_segments [openingSeg] [weatherSeg]).1
    ∧ (weatherSeg ∈ [openingSeg] ∨ weatherSeg ∈ [weatherSeg]) := by
  have hmem : weatherSeg ∈ (insert_weather_segments [openingSeg] [weatherSeg]).1 := by
    obtain ⟨n, _, heq⟩ := insert_weather_decomp [openingSeg] [weatherSeg]
    rw [heq]
    simp
  exact ⟨hmem, merge_carries_segments_unchanged [openingSeg] [weatherSeg] weatherSeg hmem⟩

/-!
## Reference-level model of the merge (for the no-mutation claim)

Python passes the manifest's segment dicts by reference.  To state that
`insert_weather_segments` mutates nothing, the heap of segment records is
made explicit: a store `ℕ → Segment` maps object identities to records,
and the primary and secondary sequences are lists of identities.  The
operation below is a statement-by-statement transcription of the source
body over this model: the body only *reads* the store (`seg['segment_type']`
lookups in the two index loops) and builds the new sequence by slicing and
concatenation — it contains no assignment into `segments`, into
`weather_segments`, or into any segment record, so the resulting store is
the input store.  The refinement theorem below checks this transcription
against the pure model: dereferencing its output yields exactly
`insert_weather_segments` of the dereferenced inputs.
-/

/-- `last_news_idx` loop over segment references. -/
def lastNewsLoopRefs (store : ℕ → Segment) : List ℕ → ℤ → ℤ → ℤ
  | [], _, acc => acc
  | a :: rest, i, acc =>
    lastNewsLoopRefs store rest (i + 1)
      (if (store a).segment_type = "news" then i else acc)

/-- first-`closing_remarks` loop over segment references. -/
def firstClosingLoopRefs (store : ℕ → Segment) : List ℕ → ℤ → Option ℤ
  | [], _ => none
  | a :: rest, i =>
    if (store a).segment_type = "closing_remarks" then some i
    else firstClosingLoopRefs store rest (i + 1)

/-- Anchor computation over segment references. -/
def mergeAnchorRefs (store : ℕ → Segment) (segments : List ℕ) : ℤ × List String :=
  let lastNews0 := lastNewsLoopRefs store segments 0 (-1)
  if lastNews0 = -1 then
    let j : ℤ :=
      match firstClosingLoopRefs store segments 0 with
      | some i => i - 1
      | none => -1
    if j = -1 then ((segments.length : ℤ) - 1, [warnNoNews, warnNoClosing])
    else (j, [warnNoNews])
  else (lastNews0, [])

/-- `insert_weather_segments` over the explicit store: returns the store
as left by the body (no statement of the body writes to it), the new
spliced sequence of references, and the warnings. -/
def insert_weather_segments_refs (store : ℕ → Segment)
    (segments weather_segments : List ℕ) : (ℕ → Segment) × List ℕ × List String :=
  let res := mergeAnchorRefs store segments
  let insertPos := (res.1 + 1).toNat
  (store, segments.take insertPos ++ weather_segments ++ segments.drop insertPos, res.2)

theorem lastNewsLoopRefs_map (store : ℕ → Segment) :
    ∀ (l : List ℕ) (i acc : ℤ),
      lastNewsLoopRefs store l i acc = lastNewsLoop (l.map store) i acc := by
  intro l
  induction l with
  | nil => intro i acc; rfl
  | cons a rest ih =>
    intro i acc
    simp only [lastNewsLoopRefs, List.map_cons, lastNewsLoop]
    exact ih (i + 1) _

theorem firstClosingLoopRefs_map (store : ℕ → Segment) :
    ∀ (l : List ℕ) (i : ℤ),
      firstClosingLoopRefs store l i = firstClosingLoop (l.map store) i := by
  intro l
  induction l with
  | nil => intro i; rfl
  | cons a rest ih =>
    intro i
    simp only [firstClosingLoopRefs, List.map_cons, firstClosingLoop]
    split
    · rfl
    · exact ih (i + 1)

theorem mergeAnchorRefs_map (store : ℕ → Segment) (segments : List ℕ) :
    mergeAnchorRefs store segments = mergeAnchor (segments.map store) := by
  unfold mergeAnchorRefs mergeAnchor
  rw [lastNewsLoopRefs_map, firstClosingLoopRefs_map, List.length_map]

/-- C8: over the explicit heap of segment records, the merge leaves the
store — hence every segment record, reachable from the primary, the
secondary or anywhere else — untouched, leaves the two input sequences
untouched (they are read-only values of the model), and returns a freshly
built sequence whose dereferencing is exactly the pure merge of the
dereferenced inputs, with the same warnings. -/
theorem merge_mutates_nothing (store : ℕ → Segment) (primary secondary : List ℕ) :
    (∀ a : ℕ, (insert_weather_segments_refs store primary secondary).1 a = store a)
    ∧ ((insert_weather_segments_refs store primary secondary).2.1.map store =
        (insert_weather_segments (primary.map store) (secondary.map store)).1)
    ∧ ((insert_weather_segments_refs store primary secondary).2.2 =
        (insert_weather_segments (primary.map store) (secondary.map store)).2) := by
  refine ⟨fun a => rfl, ?_, ?_⟩
  · show (primary.take _ ++ secondary ++ primary.drop _).map store = _
    rw [List.map_append, List.map_append, List.map_take, List.map_drop,
      mergeAnchorRefs_map]
    rfl
  · show (mergeAnchorRefs store primary).2 = (mergeAnchor (primary.map store)).2
    rw [mergeAnchorRefs_map]

/-- A script segment as emitted by step 2 and consumed by step 3: the
keys of the `news_scripts.json` dicts.  `duration` is the pre-synthesis
planning estimate (`default_duration` of the segment type); `headline` is
present only on news-story segments. -/
structure ScriptSegment where
  segment_type : String
  display_name : String
  display_order : ℤ
  duration : ℚ
  script : String
  headline : Option String := none
  deriving Repr, DecidableEq

/-- The duration-recording block shared by the three TTS generators of
step 3 (OpenAI lines 238–245, Google lines 172–179, ElevenLabs lines
318–325) and by the `--combine-only` path (lines 490–497): try to decode
the audio asset and use its measured length; on a decoding exception fall
back to the segment's estimated `duration`; the result dict stores
`round(actual_duration, 3)`.  `decoded` is the outcome of
`AudioSegment.from_file` (`some` = measured seconds, `none` = exception).
No vendor-reported duration exists anywhere in this path. -/
def recorded_duration (segment : ScriptSegment) (decoded : Option ℚ) : ℚ :=
  pyRound3 (match decoded with
    | some measured => measured
    | none => segment.duration)

/-- The property C6 claims: the recorded duration always comes from a
successful decode of the produced asset. -/
def duration_is_measured (segment : ScriptSegment) (decoded : Option ℚ) : Prop :=
  ∃ m : ℚ, decoded = some m ∧ recorded_duration segment decoded = pyRound3 m

/-- A news-story script with the configured 30-second estimate. -/
def storyScript : ScriptSegment :=
  ⟨"news", "News Story 1", 100, 30, "story text", some "story headline"⟩

/-- Counterexample to C6: when the produced asset cannot be decoded, the
rendered segment still succeeds, and its recorded duration is the
pre-synthesis estimate (30), not a measured value. -/
theorem recorded_duration_uses_estimate_on_decode_failure :
    recorded_duration storyScript none = 30
    ∧ ¬ duration_is_measured storyScript none := by
  constructor
  · show pyRound3 30 = 30
    simpa using pyRound3_ofNat 30
  · rintro ⟨m, hm, -⟩
    exact Option.noConfusion hm

/-- C6 (amended): whenever decoding the produced asset succeeds, the
recorded duration is exactly the measured length rounded to three
decimals — never a vendor-reported value, which does not exist in this
code path — and only on a decoding failure does the code fall back to the
pre-synthesis estimated duration (also rounded). -/
theorem recorded_duration_measured_when_decodable (segment : ScriptSegment) (m : ℚ) :
    recorded_duration segment (some m) = pyRound3 m
    ∧ recorded_duration segment none = pyRound3 segment.duration :=
  ⟨rfl, rfl⟩

/-- The audio filename step 3 derives from a script segment:
`f"{segment_type}_{display_order}.{output_format}"` with the configured
`mp3` output format. -/
def audio_filename (seg : ScriptSegment) : String :=
  seg.segment_type ++ "_" ++ toString seg.display_order ++ ".mp3"

/-- The per-segment result dict of step 3 as consumed by the timing loop:
built from the script segment and the recorded duration. -/
def mk_render_result (seg : ScriptSegment) (d : ℚ) : RenderedSegment :=
  ⟨seg.segment_type, seg.display_name, seg.script, audio_filename seg, d⟩

/-- The `--combine-only` path of `step3_tts_generator.main` (lines
479–511): for each script segment, if its audio file exists, build the
result from the existing asset's measured duration (estimate fallback on
decode failure); if the file is missing, report it and skip the segment —
no generation happens.  `onDisk` maps a filename to `some decoded` when
the file exists (`decoded` as in `recorded_duration`) and `none` when it
is missing. -/
def combine_only_loop (onDisk : String → Option (Option ℚ)) :
    List ScriptSegment → List RenderedSegment
  | [] => []
  | seg :: rest =>
    match onDisk (audio_filename seg) with
    | some decoded =>
      mk_render_result seg (recorded_duration seg decoded) :: combine_only_loop onDisk rest
    | none => combine_only_loop onDisk rest

/-- The default path of `step3_tts_generator.main` (lines 512–516): call
`generate_audio_from_script` — a vendor TTS call — for every script
segment, unconditionally; collect the non-`None` results.  `vendor seg`
is the outcome of the call (`some d` = result dict with recorded duration
`d`, `none` = exception, segment dropped).  The second component counts
the vendor calls performed. -/
def render_all_loop (vendor : ScriptSegment → Option ℚ) :
    List ScriptSegment → List RenderedSegment × ℕ
  | [] => ([], 0)
  | seg :: rest =>
    let out := render_all_loop vendor rest
    match vendor seg with
    | some d => (mk_render_result seg d :: out.1, out.2 + 1)
    | none => (out.1, out.2 + 1)

/-- The render phase of step 3: `--combine-only` reuses existing files and
performs no vendor call; otherwise every segment is rendered through the
vendor. -/
def render_step (combine_only : Bool) (onDisk : String → Option (Option ℚ))
    (vendor : ScriptSegment → Option ℚ) (scripts : List ScriptSegment) :
    List RenderedSegment × ℕ :=
  if combine_only then (combine_only_loop onDisk scripts, 0)
  else render_all_loop vendor scripts

/-- Counterexample to C7: in the default mode (no `--combine-only` flag),
rendering a single segment whose audio asset already exists at the
expected path still performs one vendor TTS call — there is no cache-hit
check in the generation path. -/
theorem render_step_ignores_cache_by_default :
    (render_step false (fun _ => some (some 5)) (fun _ => some 5) [storyScript]).2 = 1
    ∧ ¬ (render_step false (fun _ => some (some 5)) (fun _ => some 5) [storyScript]).2 = 0 := by
  constructor
  · rfl
  · intro h
    simp [render_step, render_all_loop] at h

/-- C7 (amended): only under the `--combine-only` flag does step 3 reuse
existing assets: it then performs zero vendor calls and returns, for
exactly the segments whose asset exists, a result built from the existing
asset's measured duration (segments with missing assets are skipped, not
rendered); in the default mode the vendor is called once per segment,
whether or not its asset already exists. -/
theorem render_step_cache_behaviour (onDisk : String → Option (Option ℚ))
    (vendor : ScriptSegment → Option ℚ) (scripts : List ScriptSegment) :
    (render_step true onDisk vendor scripts).2 = 0
    ∧ (render_step true onDisk vendor scripts).1 =
        scripts.filterMap (fun seg =>
          (onDisk (audio_filename seg)).map
            (fun decoded => mk_render_result seg (recorded_duration seg decoded)))
    ∧ (render_step false onDisk vendor scripts).2 = scripts.length := by
  refine ⟨rfl, ?_, ?_⟩
  · show combine_only_loop onDisk scripts = _
    induction scripts with
    | nil => rfl
    | cons seg rest ih =>
      simp only [combine_only_loop, List.filterMap_cons]
      cases h : onDisk (audio_filename seg) with
      | none => simpa [h] using ih
      | some decoded => simpa [h] using ih
  · show (render_all_loop vendor scripts).2 = _
    induction scripts with
    | nil => rfl
    | cons seg rest ih =>
      simp only [render_all_loop, List.length_cons]
      cases h : vendor seg with
      | none => simpa [h] using ih
      | some d => simpa [h] using ih

/-!
## Media mapper (`map_media_to_segments` of step 4)

Python string operations are embedded over `List Char`:
`str.split()` (split on whitespace, dropping empty parts), `int(str)`
(optional sign, then decimal digits — the unused underscore/whitespace
forms of Python's `int` are not modelled), and the substring test
`pat in text`.
-/

/-- Accumulating worker for whitespace splitting. -/
def splitWsAux : List Char → List Char → List (List Char)
  | [], cur => if cur = [] then [] else [cur.reverse]
  | c :: rest, cur =>
    if c.isWhitespace then
      if cur = [] then splitWsAux rest [] else cur.reverse :: splitWsAux rest []
    else splitWsAux rest (c :: cur)

/-- Python `str.split()` with no argument: split on runs of whitespace,
no empty parts. -/
def pySplitWs (s : List Char) : List (List Char) := splitWsAux s []

/-- Decimal digit accumulation for `int`. -/
def parseNatDigits : List Char → ℕ → Option ℕ
  | [], acc => some acc
  | c :: rest, acc =>
    if '0' ≤ c ∧ c ≤ '9' then parseNatDigits rest (acc * 10 + (c.toNat - '0'.toNat))
    else none

/-- Python `int(s)` on a whitespace-free token: optional sign then at
least one decimal digit, else `ValueError` (`none`). -/
def pyInt? : List Char → Option ℤ
  | [] => none
  | '-' :: rest =>
    if rest = [] then none else (parseNatDigits rest 0).map (fun n => -(n : ℤ))
  | '+' :: rest =>
    if rest = [] then none else (parseNatDigits rest 0).map (fun n => (n : ℤ))
  | s => (parseNatDigits s 0).map (fun n => (n : ℤ))

/-- Python `pat in text` on strings. -/
def hasSubstring (text pat : List Char) : Bool :=
  match text with
  | [] => decide (pat = [])
  | _ :: rest => pat.isPrefixOf text || hasSubstring rest pat

/-- The number-extraction idiom of `map_media_to_segments` (lines 137–148
and 185–195): if the keyword occurs in the display name, split the name
on whitespace and parse the last part as an int; any failure (keyword
missing, no parts, non-numeric last part) yields no number. -/
def extract_trailing_number (keyword display_name : String) : Option ℤ :=
  if hasSubstring display_name.toList keyword.toList then
    match (pySplitWs display_name.toList).getLast? with
    | some lastPart => pyInt? lastPart
    | none => none
  else none

/-- One media entry of a `news_data.json` item. -/
structure NewsMediaItem where
  image : String
  original_name : Option String := none
  size_mb : Option ℚ := none
  deriving Repr, DecidableEq

/-- One item of `news_data.json` as read by step 4. -/
structure NewsItem where
  news : String
  title : Option String := none
  media : List NewsMediaItem := []
  deriving Repr, DecidableEq

def introMedia : MediaAttachment :=
  { video := some "intro.mp4", path := "media/intro.mp4", type := "intro_video" }

def outroMedia : MediaAttachment :=
  { video := some "outro.mp4", path := "media/outro.mp4", type := "outro_video" }

def babadMedia : MediaAttachment :=
  { video := some "babad.mp4", path := "media/babad.mp4", type := "babad_video" }

/-- The headline object written for a headline segment number `n` (lines
156–162). -/
def headlineInfoFor (script : String) (n : ℤ) : HeadlineInfo :=
  { text := script,
    location := "Pulilan, Bulacan",
    category := if n = 1 then "Breaking News" else "Local News",
    priority := if n = 1 then "high" else "normal",
    timestamp := "LIVE" }

/-- The `headline_image` attachment built from the first media item of the
matching story (lines 165–175). -/
def headlineImageFor (first : NewsMediaItem) (n : ℤ) : MediaAttachment :=
  { image := some first.image,
    path := "media/" ++ first.image,
    type := "headline_image",
    news_index := some n,
    original_name := some (first.original_name.getD ""),
    size_mb := some (first.size_mb.getD 0) }

/-- A `news_image` attachment (lines 227–234). -/
def newsImageFor (mi : NewsMediaItem) : MediaAttachment :=
  { image := some mi.image,
    path := "media/" ++ mi.image,
    type := "news_image",
    original_name := some (mi.original_name.getD ""),
    size_mb := some (mi.size_mb.getD 0) }

/-- Processing of one segment by `map_media_to_segments` (lines 102–243).
`search` is the segment list the news branch scans for the sibling
headline segment (`manifest['individual_segments']` at that moment).
Every segment first gets `media = []`; the branch on `segment_type` then
enriches it.  The `⚠️` diagnostics are returned as warnings. -/
def processOneSegment (news_data : List NewsItem) (search : List Segment)
    (seg : Segment) : Segment × List String :=
  let seg0 := { seg with media := ([] : List MediaAttachment) }
  if seg.segment_type = "opening_greeting" then
    ({ seg0 with media := [introMedia] }, [])
  else if seg.segment_type = "closing_remarks" then
    ({ seg0 with media := [outroMedia] }, [])
  else if seg.segment_type = "headline_opening" then
    ({ seg0 with media := [babadMedia] }, [])
  else if seg.segment_type = "headline" then
    match extract_trailing_number "Headline" seg.display_name with
    | none =>
      (seg0, ["Could not determine headline number for: " ++ seg.display_name])
    | some n =>
      if 0 ≤ n - 1 ∧ n - 1 < (news_data.length : ℤ) then
        let news_item := news_data.getD (n - 1).toNat ⟨"", none, []⟩
        let seg1 := { seg0 with headline := some (headlineInfoFor seg.script n) }
        match news_item.media with
        | [] => (seg1, ["No media found for headline " ++ toString n])
        | first :: _ => ({ seg1 with media := [headlineImageFor first n] }, [])
      else
        (seg0, ["Headline " ++ toString n ++ " not found in news data (only "
                  ++ toString news_data.length ++ " items)"])
  else if seg.segment_type = "news" then
    match extract_trailing_number "Story" seg.display_name with
    | none =>
      (seg0, ["Could not determine news story number for: " ++ seg.display_name])
    | some n =>
      if 0 ≤ n - 1 ∧ n - 1 < (news_data.length : ℤ) then
        let news_item := news_data.getD (n - 1).toNat ⟨"", none, []⟩
        let corresponding := search.find? (fun hseg =>
          hseg.segment_type = "headline"
            && hasSubstring hseg.display_name.toList
                 (("News Headline " ++ toString n).toList))
        let copied : Option HeadlineInfo :=
          match corresponding with
          | some hseg => hseg.headline
          | none => none
        let seg1 :=
          match copied with
          | some h => { seg0 with headline := some h }
          | none =>
            { seg0 with headline := some (headlineInfoFor
                (news_item.title.getD (seg.script.take 100 ++ "...")) n) }
        match news_item.media with
        | [] => (seg1, ["No media found for news story " ++ toString n])
        | _ => ({ seg1 with media := news_item.media.map newsImageFor }, [])
      else
        (seg0, ["News story " ++ toString n ++ " not found in news data (only "
                  ++ toString news_data.length ++ " items)"])
  else
    (seg0, [])

/-- The segment loop of `map_media_to_segments`: segments are processed
in order and mutated in place, so when the news branch scans the list for
the sibling headline it sees the already-processed prefix, the current
segment with its media cleared, and the untouched suffix. -/
def mapMediaGo (news_data : List NewsItem) :
    List Segment → List Segment → List String → List Segment × List String
  | processed, [], warns => (processed, warns)
  | processed, seg :: rest, warns =>
    let search := processed ++ ({ seg with media := ([] : List MediaAttachment) } :: rest)
    let out := processOneSegment news_data search seg
    mapMediaGo news_data (processed ++ [out.1]) rest (warns ++ out.2)

/-- `map_media_to_segments` of `step4_update_manifest.py` (lines 96–248),
on the manifest's `individual_segments` list; returns the updated
segments and the accumulated warnings. -/
def map_media_to_segments (segments : List Segment) (news_data : List NewsItem) :
    List Segment × List String :=
  mapMediaGo news_data [] segments []

/-- The failure condition of C9: for every story number the segment's
display name yields (if any), the derived 0-based index is out of range
of the news catalog.  This covers both an undeterminable number (the
extraction yields nothing, making the condition vacuous) and an
out-of-range one. -/
def story_index_unresolvable (news_data : List NewsItem) (keyword : String)
    (seg : Segment) : Prop :=
  ∀ n : ℤ, extract_trailing_number keyword seg.display_name = some n →
    ¬ (0 ≤ n - 1 ∧ n - 1 < (news_data.length : ℤ))

theorem processOneSegment_unresolvable (news_data : List NewsItem)
    (search : List Segment) (seg : Segment)
    (hcase : (seg.segment_type = "news"
        ∧ story_index_unresolvable news_data "Story" seg)
      ∨ (seg.segment_type = "headline"
        ∧ story_index_unresolvable news_data "Headline" seg)) :
    (processOneSegment news_data search seg).1 =
        { seg with media := ([] : List MediaAttachment) }
    ∧ (processOneSegment news_data search seg).2.length = 1 := by
  rcases hcase with ⟨hty, hbad⟩ | ⟨hty, hbad⟩
  · unfold processOneSegment
    rw [hty]
    rw [if_neg (by decide), if_neg (by decide), if_neg (by decide),
      if_neg (by decide), if_pos rfl]
    cases hx : extract_trailing_number "Story" seg.display_name with
    | none => exact ⟨rfl, rfl⟩
    | some n =>
      have hcond := hbad n hx
      dsimp only
      rw [if_neg hcond]
      exact ⟨rfl, rfl⟩
  · unfold processOneSegment
    rw [hty]
    rw [if_neg (by decide), if_neg (by decide), if_neg (by decide), if_pos rfl]
    cases hx : extract_trailing_number "Headline" seg.display_name with
    | none => exact ⟨rfl, rfl⟩
    | some n =>
      have hcond := hbad n hx
      dsimp only
      rw [if_neg hcond]
      exact ⟨rfl, rfl⟩

theorem mapMediaGo_append (news_data : List NewsItem) :
    ∀ (l processed : List Segment) (warns : List String),
      ∃ tail tailw, mapMediaGo news_data processed l warns =
        (processed ++ tail, warns ++ tailw) := by
  intro l
  induction l with
  | nil =>
    intro processed warns
    exact ⟨[], [], by simp [mapMediaGo]⟩
  | cons seg rest ih =>
    intro processed warns
    rw [mapMediaGo]
    obtain ⟨t, tw, ht⟩ := ih (processed ++
      [(processOneSegment news_data
          (processed ++ ({ seg with media := ([] : List MediaAttachment) } :: rest)) seg).1])
      (warns ++ (processOneSegment news_data
          (processed ++ ({ seg with media := ([] : List MediaAttachment) } :: rest)) seg).2)
    refine ⟨(processOneSegment news_data
        (processed ++ ({ seg with media := ([] : List MediaAttachment) } :: rest)) seg).1 :: t,
      (processOneSegment news_data
        (processed ++ ({ seg with media := ([] : List MediaAttachment) } :: rest)) seg).2 ++ tw,
      ?_⟩
    rw [ht]
    simp

theorem mapMediaGo_length (news_data : List NewsItem) :
    ∀ (l processed : List Segment) (warns : List String),
      (mapMediaGo news_data processed l warns).1.length =
        processed.length + l.length := by
  intro l
  induction l with
  | nil => intro processed warns; simp [mapMediaGo]
  | cons seg rest ih =>
    intro processed warns
    rw [mapMediaGo, ih]
    simp only [List.length_append, List.length_cons, List.length_nil]
    omega

theorem mapMediaGo_get (news_data : List NewsItem) :
    ∀ (l processed : List Segment) (warns : List String) (k : ℕ) (seg : Segment),
      l[k]? = some seg →
      ∃ (search : List Segment) (w1 w2 : List String),
        (mapMediaGo news_data processed l warns).1[processed.length + k]? =
          some (processOneSegment news_data search seg).1
        ∧ (mapMediaGo news_data processed l warns).2 =
            w1 ++ (processOneSegment news_data search seg).2 ++ w2 := by
  intro l
  induction l with
  | nil => intro processed warns k seg hk; simp at hk
  | cons seg' rest ih =>
    intro processed warns k seg hk
    cases k with
    | zero =>
      simp only [List.getElem?_cons_zero, Option.some.injEq] at hk
      subst hk
      rw [mapMediaGo]
      obtain ⟨t, tw, ht⟩ := mapMediaGo_append news_data rest
        (processed ++ [(processOneSegment news_data
          (processed ++ ({ seg' with media := ([] : List MediaAttachment) } :: rest)) seg').1])
        (warns ++ (processOneSegment news_data
          (processed ++ ({ seg' with media := ([] : List MediaAttachment) } :: rest)) seg').2)
      refine ⟨processed ++ ({ seg' with media := ([] : List MediaAttachment) } :: rest),
        warns, tw, ?_, ?_⟩
      · rw [ht]
        simp only [Nat.add_zero, List.append_assoc, List.singleton_append]
        rw [List.getElem?_append_right (le_refl processed.length)]
        simp
      · rw [ht]
    | succ k =>
      rw [List.getElem?_cons_succ] at hk
      rw [mapMediaGo]
      obtain ⟨search, w1, w2, hget, hwarn⟩ :=
        ih (processed ++ [(processOneSegment news_data
            (processed ++ ({ seg' with media := ([] : List MediaAttachment) } :: rest)) seg').1])
          (warns ++ (processOneSegment news_data
            (processed ++ ({ seg' with media := ([] : List MediaAttachment) } :: rest)) seg').2)
          k seg hk
      refine ⟨search, w1, w2, ?_, hwarn⟩
      have hlen : (processed ++ [(processOneSegment news_data
          (processed ++ ({ seg' with media := ([] : List MediaAttachment) } :: rest)) seg').1]).length
          = processed.length + 1 := by simp
      rw [hlen] at hget
      have hidx : processed.length + (k + 1) = processed.length + 1 + k := by omega
      rw [hidx]
      exact hget

/-- C9: a per-story headline or body segment whose referenced story index
cannot be determined or is out of range of the news catalog comes out of
the media mapper unchanged except that its media list is (re)set to empty
— script, timing, headline and every other field intact, at the same
position, with the list length preserved — and a warning is logged; the
mapper has no raise path (it is a total function). -/
theorem media_mapper_out_of_range (segments : List Segment)
    (news_data : List NewsItem) (k : ℕ) (seg : Segment)
    (hk : segments[k]? = some seg)
    (hcase : (seg.segment_type = "news"
        ∧ story_index_unresolvable news_data "Story" seg)
      ∨ (seg.segment_type = "headline"
        ∧ story_index_unresolvable news_data "Headline" seg)) :
    (map_media_to_segments segments news_data).1[k]? =
        some { seg with media := ([] : List MediaAttachment) }
    ∧ (map_media_to_segments segments news_data).1.length = segments.length
    ∧ (map_media_to_segments segments news_data).2 ≠ [] := by
  obtain ⟨search, w1, w2, hget, hwarn⟩ :=
    mapMediaGo_get news_data segments [] [] k seg hk
  obtain ⟨hval, hwlen⟩ := processOneSegment_unresolvable news_data search seg hcase
  refine ⟨?_, ?_, ?_⟩
  · show (mapMediaGo news_data [] segments []).1[k]? = _
    have h0 : (([] : List Segment)).length + k = k := by simp
    rw [h0] at hget
    rw [hget, hval]
  · show (mapMediaGo news_data [] segments []).1.length = _
    rw [mapMediaGo_length]
    simp
  · show (mapMediaGo news_data [] segments []).2 ≠ []
    rw [hwarn]
    intro hcon
    have := congrArg List.length hcon
    simp [hwlen] at this

/-- A per-story body segment referencing story 5. -/
def outOfRangeStorySeg : Segment :=
  ⟨"news", "News Story 5", "story five script", 30, 100, 130,
   "news_104.mp3", "generated/audio/news_104.mp3", [], none⟩

/-- A one-item news catalog, so story index 5 is out of range. -/
def smallCatalog : List NewsItem := [⟨"only story", some "Only Title", []⟩]

/-- Witness for C9: "News Story 5" against a one-item catalog satisfies
the hypotheses, and the mapper keeps the segment (with empty media and
all other fields intact) while logging a warning. -/
theorem media_mapper_out_of_range_witness :
    (([outOfRangeStorySeg] : List Segment)[0]? = some outOfRangeStorySeg
      ∧ outOfRangeStorySeg.segment_type = "news"
      ∧ story_index_unresolvable smallCatalog "Story" outOfRangeStorySeg)
    ∧ (map_media_to_segments [outOfRangeStorySeg] smallCatalog).1[0]? =
        some { outOfRangeStorySeg with media := ([] : List MediaAttachment) }
    ∧ (map_media_to_segments [outOfRangeStorySeg] smallCatalog).2 ≠ [] := by
  have hk : ([outOfRangeStorySeg] : List Segment)[0]? = some outOfRangeStorySeg := rfl
  have hty : outOfRangeStorySeg.segment_type = "news" := rfl
  have hbad : story_index_unresolvable smallCatalog "Story" outOfRangeStorySeg := by
    intro n hn
    have hev : extract_trailing_number "Story" outOfRangeStorySeg.display_name = some 5 := by
      decide
    rw [hev] at hn
    simp only [Option.some.injEq] at hn
    subst hn
    decide
  have hmain := media_mapper_out_of_range [outOfRangeStorySeg] smallCatalog 0
    outOfRangeStorySeg hk (Or.inl ⟨hty, hbad⟩)
  exact ⟨⟨hk, hty, hbad⟩, hmain.1, hmain.2.2⟩

/-!
## Script generation (step 2): display-order assignment

The LLM-generated narration texts are opaque inputs; everything else
(segment types, display names, display orders, estimated durations, the
final sort of `main`) is transcribed from `step2_generate_scripts.py` and
the `SEGMENT_TYPES` table of `config.py`.
-/

/-- `generate_opening_script`: order 0, display name and duration from
`SEGMENT_TYPES["opening"]`. -/
def generate_opening_script (text : String) : ScriptSegment :=
  { segment_type := "opening_greeting", display_name := "Opening Greeting",
    display_order := 0, duration := 15, script := text }

/-- The headline-opening segment of `generate_summary_scripts` (lines
254–260): order 1, duration 5.0. -/
def summary_opening_script (text : String) : ScriptSegment :=
  { segment_type := "headline_opening", display_name := "News Headline Opening",
    display_order := 1, duration := 5, script := text }

/-- The `i`-th (0-based) headline segment of `generate_summary_scripts`
(lines 326–332): name `News Headline {i+1}`, order `i + 2`, duration from
`SEGMENT_TYPES["headline"]`. -/
def headline_script (i : ℕ) (text : String) : ScriptSegment :=
  { segment_type := "headline", display_name := "News Headline " ++ toString (i + 1),
    display_order := (i : ℤ) + 2, duration := 10, script := text }

/-- `generate_summary_scripts`: empty for an empty catalog, else the
headline opening followed by one headline per news item. -/
def generate_summary_scripts (n : ℕ) (openingText : String)
    (texts : ℕ → String) : List ScriptSegment :=
  if n = 0 then []
  else summary_opening_script openingText ::
    (List.range n).map (fun i => headline_script i (texts i))

/-- The `i`-th (0-based) story segment of `generate_news_scripts` (lines
473–480): name `News Story {i+1}`, order `i + 100`, duration from
`SEGMENT_TYPES["news"]`, with a headline string. -/
def news_script (i : ℕ) (headlineText text : String) : ScriptSegment :=
  { segment_type := "news", display_name := "News Story " ++ toString (i + 1),
    display_order := (i : ℤ) + 100, duration := 30, script := text,
    headline := some headlineText }

/-- `generate_news_scripts`: one story segment per news item. -/
def generate_news_scripts (n : ℕ) (heads texts : ℕ → String) : List ScriptSegment :=
  (List.range n).map (fun i => news_script i (heads i) (texts i))

/-- `generate_closing_script`: order 999, name and duration from
`SEGMENT_TYPES["closing"]`. -/
def generate_closing_script (text : String) : ScriptSegment :=
  { segment_type := "closing_remarks", display_name := "Closing Remarks",
    display_order := 999, duration := 15, script := text }

/-- The script list assembled by `step2_generate_scripts.main` (lines
531–553) before sorting: opening, then (for a nonempty catalog) summaries
and stories, then closing. -/
def assembled_scripts (n : ℕ) (openText hoText : String)
    (hTexts sHeads sTexts : ℕ → String) (closeText : String) : List ScriptSegment :=
  [generate_opening_script openText]
    ++ (if n ≠ 0 then generate_summary_scripts n hoText hTexts else [])
    ++ (if n ≠ 0 then generate_news_scripts n sHeads sTexts else [])
    ++ [generate_closing_script closeText]

/-- The list `main` saves to `news_scripts.json`: the assembled scripts
sorted (stably) by `display_order` (line 556). -/
def step2_emitted_scripts (n : ℕ) (openText hoText : String)
    (hTexts sHeads sTexts : ℕ → String) (closeText : String) : List ScriptSegment :=
  (assembled_scripts n openText hoText hTexts sHeads sTexts closeText).mergeSort
    (fun a b => a.display_order ≤ b.display_order)

theorem assembled_scripts_pairwise (n : ℕ) (hn : n ≤ 98) (openText hoText : String)
    (hTexts sHeads sTexts : ℕ → String) (closeText : String) :
    (assembled_scripts n openText hoText hTexts sHeads sTexts closeText).Pairwise
      (fun a b => a.display_order < b.display_order) := by
  unfold assembled_scripts
  rw [List.pairwise_append, List.pairwise_append, List.pairwise_append]
  have hSumOrd : ∀ s ∈ (if n ≠ 0 then generate_summary_scripts n hoText hTexts else []),
      1 ≤ s.display_order ∧ s.display_order ≤ (n : ℤ) + 1 := by
    intro s hs
    split at hs
    · unfold generate_summary_scripts at hs
      split at hs
      · simp at hs
      · rcases List.mem_cons.mp hs with rfl | hs2
        · simp only [summary_opening_script]
          omega
        · obtain ⟨i, hi, rfl⟩ := List.mem_map.mp hs2
          rw [List.mem_range] at hi
          simp only [headline_script]
          constructor
          · omega
          · omega
    · simp at hs
  have hNewsOrd : ∀ s ∈ (if n ≠ 0 then generate_news_scripts n sHeads sTexts else []),
      100 ≤ s.display_order ∧ s.display_order ≤ (n : ℤ) + 99 := by
    intro s hs
    split at hs
    · obtain ⟨i, hi, rfl⟩ := List.mem_map.mp hs
      rw [List.mem_range] at hi
      simp only [news_script]
      constructor
      · omega
      · omega
    · simp at hs
  refine ⟨⟨⟨?_, ?_, ?_⟩, ?_, ?_⟩, ?_, ?_⟩
  · exact List.pairwise_singleton _ _
  · split
    · unfold generate_summary_scripts
      split
      · exact List.Pairwise.nil
      · rw [List.pairwise_cons]
        constructor
        · intro s hs
          obtain ⟨i, hi, rfl⟩ := List.mem_map.mp hs
          simp only [summary_opening_script, headline_script]
          omega
        · rw [List.pairwise_map]
          apply List.Pairwise.imp _ (List.pairwise_lt_range n)
          intro a b hab
          simp only [headline_script]
          omega
    · exact List.Pairwise.nil
  · intro a ha b hb
    simp only [List.mem_singleton] at ha
    subst ha
    have := hSumOrd b hb
    simp only [generate_opening_script]
    omega
  · split
    · unfold generate_news_scripts
      rw [List.pairwise_map]
      apply List.Pairwise.imp _ (List.pairwise_lt_range n)
      intro a b hab
      simp only [news_script]
      omega
    · exact List.Pairwise.nil
  · intro a ha b hb
    have hb2 := hNewsOrd b hb
    rcases List.mem_append.mp ha with ha2 | ha2
    · simp only [List.mem_singleton] at ha2
      subst ha2
      simp only [generate_opening_script]
      omega
    · have := hSumOrd a ha2
      omega
  · exact List.pairwise_singleton _ _
  · intro a ha b hb
    simp only [List.mem_singleton] at hb
    subst hb
    simp only [generate_closing_script]
    rcases List.mem_append.mp ha with ha2 | ha2
    · rcases List.mem_append.mp ha2 with ha3 | ha3
      · simp only [List.mem_singleton] at ha3
        subst ha3
        simp only [generate_opening_script]
        omega
      · have := hSumOrd a ha3
        omega
    · have := hNewsOrd a ha2
      omega

theorem step2_emitted_eq_assembled (n : ℕ) (hn : n ≤ 98) (openText hoText : String)
    (hTexts sHeads sTexts : ℕ → String) (closeText : String) :
    step2_emitted_scripts n openText hoText hTexts sHeads sTexts closeText =
      assembled_scripts n openText hoText hTexts sHeads sTexts closeText := by
  apply List.mergeSort_of_sorted
  apply List.Pairwise.imp _
    (assembled_scripts_pairwise n hn openText hoText hTexts sHeads sTexts closeText)
  intro a b hab
  simp only [decide_eq_true_eq]
  omega

theorem mem_assembled_scripts (n : ℕ) (hn : n ≠ 0) (openText hoText : String)
    (hTexts sHeads sTexts : ℕ → String) (closeText : String) (s : ScriptSegment)
    (hs : s ∈ assembled_scripts n openText hoText hTexts sHeads sTexts closeText) :
    s = generate_opening_script openText
    ∨ s = summary_opening_script hoText
    ∨ (∃ i, i < n ∧ s = headline_script i (hTexts i))
    ∨ (∃ i, i < n ∧ s = news_script i (sHeads i) (sTexts i))
    ∨ s = generate_closing_script closeText := by
  unfold assembled_scripts at hs
  rw [if_pos hn, if_pos hn] at hs
  unfold generate_summary_scripts generate_news_scripts at hs
  rw [if_neg hn] at hs
  rcases List.mem_append.mp hs with h | h
  · rcases List.mem_append.mp h with h2 | h2
    · rcases List.mem_append.mp h2 with h3 | h3
      · simp only [List.mem_singleton] at h3
        exact Or.inl h3
      · rcases List.mem_cons.mp h3 with h4 | h4
        · exact Or.inr (Or.inl h4)
        · obtain ⟨i, hi, hieq⟩ := List.mem_map.mp h4
          rw [List.mem_range] at hi
          exact Or.inr (Or.inr (Or.inl ⟨i, hi, hieq.symm⟩))
    · obtain ⟨i, hi, hieq⟩ := List.mem_map.mp h2
      rw [List.mem_range] at hi
      exact Or.inr (Or.inr (Or.inr (Or.inl ⟨i, hi, hieq.symm⟩)))
  · simp only [List.mem_singleton] at h
    exact Or.inr (Or.inr (Or.inr (Or.inr h)))

/-- C10: for a run over a nonempty catalog of at most 98 news items, the
script list step 2 saves is in strictly ascending `display_order` (so all
orders are pairwise distinct): the opening greeting at 0, the headline
opening at 1, the `i`-th headline (1-based) at `i + 1`, the `i`-th news
story at `i + 99`, closing remarks at 999; every story segment orders
after every headline segment, and closing remarks order after everything
else. -/
theorem step2_script_ordering (n : ℕ) (h1 : 1 ≤ n) (h98 : n ≤ 98)
    (openText hoText : String) (hTexts sHeads sTexts : ℕ → String) (closeText : String) :
    (step2_emitted_scripts n openText hoText hTexts sHeads sTexts closeText).Pairwise
        (fun a b => a.display_order < b.display_order)
    ∧ (∀ s ∈ step2_emitted_scripts n openText hoText hTexts sHeads sTexts closeText,
        (s.segment_type = "opening_greeting" → s.display_order = 0)
        ∧ (s.segment_type = "headline_opening" → s.display_order = 1)
        ∧ (s.segment_type = "headline" → ∃ i : ℕ, 1 ≤ i ∧ i ≤ n
            ∧ s.display_order = (i : ℤ) + 1
            ∧ s.display_name = "News Headline " ++ toString i)
        ∧ (s.segment_type = "news" → ∃ i : ℕ, 1 ≤ i ∧ i ≤ n
            ∧ s.display_order = (i : ℤ) + 99
            ∧ s.display_name = "News Story " ++ toString i)
        ∧ (s.segment_type = "closing_remarks" → s.display_order = 999)
        ∧ (s.segment_type ≠ "closing_remarks" → s.display_order < 999))
    ∧ (∀ s t, s ∈ step2_emitted_scripts n openText hoText hTexts sHeads sTexts closeText →
        t ∈ step2_emitted_scripts n openText hoText hTexts sHeads sTexts closeText →
        s.segment_type = "headline" → t.segment_type = "news" →
        s.display_order < t.display_order) := by
  have hn : n ≠ 0 := by omega
  rw [step2_emitted_eq_assembled n h98]
  have horder : ∀ s ∈ assembled_scripts n openText hoText hTexts sHeads sTexts closeText,
      (s.segment_type = "opening_greeting" → s.display_order = 0)
      ∧ (s.segment_type = "headline_opening" → s.display_order = 1)
      ∧ (s.segment_type = "headline" → ∃ i : ℕ, 1 ≤ i ∧ i ≤ n
          ∧ s.display_order = (i : ℤ) + 1
          ∧ s.display_name = "News Headline " ++ toString i)
      ∧ (s.segment_type = "news" → ∃ i : ℕ, 1 ≤ i ∧ i ≤ n
          ∧ s.display_order = (i : ℤ) + 99
          ∧ s.display_name = "News Story " ++ toString i)
      ∧ (s.segment_type = "closing_remarks" → s.display_order = 999)
      ∧ (s.segment_type ≠ "closing_remarks" → s.display_order < 999) := by
    intro s hs
    rcases mem_assembled_scripts n hn openText hoText hTexts sHeads sTexts closeText s hs
      with rfl | rfl | ⟨i, hi, rfl⟩ | ⟨i, hi, rfl⟩ | rfl
    · refine ⟨fun _ => rfl, ?_, ?_, ?_, ?_, ?_⟩ <;> intro hty
      · simp [generate_opening_script, summary_opening_script, headline_script, news_script, generate_closing_script] at hty
      · simp [generate_opening_script, summary_opening_script, headline_script, news_script, generate_closing_script] at hty
      · simp [generate_opening_script, summary_opening_script, headline_script, news_script, generate_closing_script] at hty
      · simp [generate_opening_script, summary_opening_script, headline_script, news_script, generate_closing_script] at hty
      · show (0 : ℤ) < 999
        omega
    · refine ⟨?_, fun _ => rfl, ?_, ?_, ?_, ?_⟩ <;> intro hty
      · simp [generate_opening_script, summary_opening_script, headline_script, news_script, generate_closing_script] at hty
      · simp [generate_opening_script, summary_opening_script, headline_script, news_script, generate_closing_script] at hty
      · simp [generate_opening_script, summary_opening_script, headline_script, news_script, generate_closing_script] at hty
      · simp [generate_opening_script, summary_opening_script, headline_script, news_script, generate_closing_script] at hty
      · show (1 : ℤ) < 999
        omega
    · refine ⟨?_, ?_, ?_, ?_, ?_, ?_⟩ <;> intro hty
      · simp [generate_opening_script, summary_opening_script, headline_script, news_script, generate_closing_script] at hty
      · simp [generate_opening_script, summary_opening_script, headline_script, news_script, generate_closing_script] at hty
      · refine ⟨i + 1, by omega, by omega, ?_, rfl⟩
        show (i : ℤ) + 2 = ((i + 1 : ℕ) : ℤ) + 1
        push_cast
        omega
      · simp [generate_opening_script, summary_opening_script, headline_script, news_script, generate_closing_script] at hty
      · simp [generate_opening_script, summary_opening_script, headline_script, news_script, generate_closing_script] at hty
      · show (i : ℤ) + 2 < 999
        omega
    · refine ⟨?_, ?_, ?_, ?_, ?_, ?_⟩ <;> intro hty
      · simp [generate_opening_script, summary_opening_script, headline_script, news_script, generate_closing_script] at hty
      · simp [generate_opening_script, summary_opening_script, headline_script, news_script, generate_closing_script] at hty
      · simp [generate_opening_script, summary_opening_script, headline_script, news_script, generate_closing_script] at hty
      · refine ⟨i + 1, by omega, by omega, ?_, rfl⟩
        show (i : ℤ) + 100 = ((i + 1 : ℕ) : ℤ) + 99
        push_cast
        omega
      · simp [generate_opening_script, summary_opening_script, headline_script, news_script, generate_closing_script] at hty
      · show (i : ℤ) + 100 < 999
        omega
    · refine ⟨?_, ?_, ?_, ?_, fun _ => rfl, ?_⟩ <;> intro hty
      · simp [generate_opening_script, summary_opening_script, headline_script, news_script, generate_closing_script] at hty
      · simp [generate_opening_script, summary_opening_script, headline_script, news_script, generate_closing_script] at hty
      · simp [generate_opening_script, summary_opening_script, headline_script, news_script, generate_closing_script] at hty
      · simp [generate_opening_script, summary_opening_script, headline_script, news_script, generate_closing_script] at hty
      · exact absurd rfl hty
  refine ⟨assembled_scripts_pairwise n h98 openText hoText hTexts sHeads sTexts closeText,
    horder, ?_⟩
  intro s t hsm htm hshead htnews
  obtain ⟨i, _, hin, hso, _⟩ := (horder s hsm).2.2.1 hshead
  obtain ⟨j, hj1, _, hto, _⟩ := (horder t htm).2.2.2.1 htnews
  rw [hso, hto]
  omega

/-- Witness for C10: a run with two news items satisfies the hypotheses;
the emitted list is strictly ascending in `display_order` and closing
remarks carry order 999. -/
theorem step2_script_ordering_witness :
    ((1 : ℕ) ≤ 2 ∧ (2 : ℕ) ≤ 98)
    ∧ (step2_emitted_scripts 2 "o" "ho" (fun _ => "h") (fun _ => "sh")
        (fun _ => "st") "c").Pairwise (fun a b => a.display_order < b.display_order)
    ∧ (∀ s ∈ step2_emitted_scripts 2 "o" "ho" (fun _ => "h") (fun _ => "sh")
        (fun _ => "st") "c",
        s.segment_type = "closing_remarks" → s.display_order = 999) := by
  have h := step2_script_ordering 2 (by norm_num) (by norm_num) "o" "ho"
    (fun _ => "h") (fun _ => "sh") (fun _ => "st") "c"
  exact ⟨⟨by norm_num, by norm_num⟩, h.1,
    fun s hs hty => ((h.2.1 s hs).2.2.2.2.1 hty)⟩
